import Mathlib

/-!
Verification of the BESS (battery energy storage system) dispatch simulator
in `src/bess.py` of the solar-bess-financial-model repository.

The price series is embedded as a list of `(timestamp, price)` pairs where a
timestamp is an hour count (an integer); the calendar day of a timestamp is
its floor-division by 24, which models pandas `DatetimeIndex.normalize()` /
daily resampling.  All arithmetic is exact rational arithmetic, modelling the
intended real-number semantics of the Python floats.
-/

/-- Hour-resolution timestamp: hours since the epoch. -/
abbrev Timestamp := ℤ

/-- Calendar day of a timestamp (pandas `normalize()` / daily grouping). -/
def dayOf (t : Timestamp) : ℤ := t.fdiv 24

/-- Parameters of `simulate_bess_dispatch` (its keyword arguments). -/
structure Params where
  capacity_MWh : ℚ
  power_MW : ℚ
  charge_eff : ℚ
  discharge_eff : ℚ
  low_q : ℚ
  high_q : ℚ
  use_daily_thresholds : Bool
deriving Repr, DecidableEq

/-- One row of the hourly output table of `simulate_bess_dispatch`
(`price`, `SOC_MWh`, `charge_MW`, `discharge_MW`, `charge_cost_$`,
`discharge_rev_$`, `net_revenue_$`, `throughput_MWh`, `charge_energy_MWh`,
`discharge_energy_MWh`, keyed by the timestamp). -/
structure HourlyRecord where
  ts : Timestamp
  price : ℚ
  SOC_MWh : ℚ
  charge_MW : ℚ
  discharge_MW : ℚ
  charge_cost : ℚ
  discharge_rev : ℚ
  net_revenue : ℚ
  throughput_MWh : ℚ
  charge_energy_MWh : ℚ
  discharge_energy_MWh : ℚ
deriving Repr, DecidableEq

/-- Insert an entry into a list sorted by timestamp (ascending). -/
def insertByTime (x : Timestamp × ℚ) : List (Timestamp × ℚ) → List (Timestamp × ℚ)
  | [] => [x]
  | y :: ys => if x.1 ≤ y.1 then x :: y :: ys else y :: insertByTime x ys

/-- Sort a series by timestamp, ascending: pandas `sort_index()`. -/
def sortByTime : List (Timestamp × ℚ) → List (Timestamp × ℚ)
  | [] => []
  | x :: xs => insertByTime x (sortByTime xs)

/-- Insert a rational into a sorted list of rationals (ascending). -/
def insertRat (x : ℚ) : List ℚ → List ℚ
  | [] => [x]
  | y :: ys => if x ≤ y then x :: y :: ys else y :: insertRat x ys

/-- Sort a list of prices ascending. -/
def sortRat : List ℚ → List ℚ
  | [] => []
  | x :: xs => insertRat x (sortRat xs)

/-- Linear-interpolation quantile of a list of values, as computed by pandas
`Series.quantile(q)` with the default `interpolation="linear"`: with the
values sorted ascending as `v_0 ≤ … ≤ v_(n-1)`, the quantile at `q` is
`v_i + (h - i) * (v_(i+1) - v_i)` where `h = q * (n - 1)` and `i = ⌊h⌋`.
Faithful for quantile fractions within `[0, 1]` on a nonempty list; outside
that range pandas raises a `ValueError` (and on an empty group it yields
NaN), while this totalized definition falls back to `getD` defaults, so
theorems quantify only over the defined domain. -/
def quantile (xs : List ℚ) (q : ℚ) : ℚ :=
  let s := sortRat xs
  let n := s.length
  let h : ℚ := q * ((n : ℚ) - 1)
  let i : ℕ := (⌊h⌋).toNat
  let lo := s.getD i 0
  let hi := s.getD (i + 1) lo
  lo + (h - (i : ℚ)) * (hi - lo)

/-- Prices of one calendar day of the series (the day's group in
`bess["price"].groupby(dates_norm)`). -/
def pricesOfDay (s : List (Timestamp × ℚ)) (d : ℤ) : List ℚ :=
  (s.filter (fun r => dayOf r.1 == d)).map (fun r => r.2)

/-- The distinct calendar days of the series, in first-appearance order
(the group keys of `groupby(dates_norm)`). -/
def daysOf (s : List (Timestamp × ℚ)) : List ℤ :=
  (s.map (fun r => dayOf r.1)).dedup

/-- The per-day quantile table `daily_q[q]`: one `(day, quantile)` entry per
distinct calendar day of the series. -/
def thresholdTable (s : List (Timestamp × ℚ)) (q : ℚ) : List (ℤ × ℚ) :=
  (daysOf s).map (fun d => (d, quantile (pricesOfDay s d) q))

/-- The low threshold the dispatch loop applies at timestamp `t`: in daily
mode the entry of `low_th_series` for `t`'s calendar day, in global mode the
`low_q` quantile of the whole series. -/
def lowThresholdAt (s : List (Timestamp × ℚ)) (p : Params) (t : Timestamp) : ℚ :=
  if p.use_daily_thresholds then
    ((thresholdTable s p.low_q).lookup (dayOf t)).getD 0
  else
    quantile (s.map (fun r => r.2)) p.low_q

/-- The high threshold the dispatch loop applies at timestamp `t`. -/
def highThresholdAt (s : List (Timestamp × ℚ)) (p : Params) (t : Timestamp) : ℚ :=
  if p.use_daily_thresholds then
    ((thresholdTable s p.high_q).lookup (dayOf t)).getD 0
  else
    quantile (s.map (fun r => r.2)) p.high_q

/-- The post-step SOC clamp `soc = max(0.0, min(soc, capacity_MWh))`. -/
def clampSOC (cap soc : ℚ) : ℚ := max 0 (min soc cap)

/-- One iteration of the dispatch loop body: given the thresholds for the
hour, the hour's price and the prior SOC, produce the new SOC and the hour's
record.  Mirrors lines 99–145 of `src/bess.py` (charge branch, discharge
branch, idle; then the SOC clamp and the recorded columns, with
`net_revenue_$` equal to the difference of the two dollar columns).  The
charge branch's `energy / charge_eff` is Python float division, which raises
`ZeroDivisionError` when `charge_eff = 0`; the rational division here is
total, so statements about error-free execution carry `charge_eff ≠ 0`. -/
def stepBess (p : Params) (low high : ℚ) (t : Timestamp) (price soc : ℚ) :
    ℚ × HourlyRecord :=
  if price ≤ low ∧ soc < p.capacity_MWh then
    let energy_into_battery := min p.power_MW (p.capacity_MWh - soc)
    let charge_from_grid := energy_into_battery / p.charge_eff
    let soc1 := clampSOC p.capacity_MWh (soc + energy_into_battery)
    (soc1,
      { ts := t, price := price, SOC_MWh := soc1,
        charge_MW := charge_from_grid, discharge_MW := 0,
        charge_cost := charge_from_grid * price, discharge_rev := 0,
        net_revenue := 0 - charge_from_grid * price,
        throughput_MWh := energy_into_battery + 0,
        charge_energy_MWh := energy_into_battery, discharge_energy_MWh := 0 })
  else if price ≥ high ∧ soc > 0 then
    let energy_from_battery := min p.power_MW soc
    let discharge_to_grid := energy_from_battery * p.discharge_eff
    let soc1 := clampSOC p.capacity_MWh (soc - energy_from_battery)
    (soc1,
      { ts := t, price := price, SOC_MWh := soc1,
        charge_MW := 0, discharge_MW := discharge_to_grid,
        charge_cost := 0, discharge_rev := discharge_to_grid * price,
        net_revenue := discharge_to_grid * price - 0,
        throughput_MWh := 0 + energy_from_battery,
        charge_energy_MWh := 0, discharge_energy_MWh := energy_from_battery })
  else
    let soc1 := clampSOC p.capacity_MWh soc
    (soc1,
      { ts := t, price := price, SOC_MWh := soc1,
        charge_MW := 0, discharge_MW := 0,
        charge_cost := 0, discharge_rev := 0, net_revenue := 0,
        throughput_MWh := 0, charge_energy_MWh := 0,
        discharge_energy_MWh := 0 })

/-- The sequential dispatch scan: fold `stepBess` over the (sorted) series,
carrying the SOC, emitting one record per hour. -/
def dispatchLoop (p : Params) (lowF highF : Timestamp → ℚ) :
    ℚ → List (Timestamp × ℚ) → List HourlyRecord
  | _, [] => []
  | soc, (t, price) :: rest =>
    let res := stepBess p (lowF t) (highF t) t price soc
    res.2 :: dispatchLoop p lowF highF res.1 rest

/-- `simulate_bess_dispatch`: sort the series by time, compute the threshold
per timestamp (global quantiles, or the per-day table in daily mode), then
run the dispatch loop from SOC = 0. -/
def simulate_bess_dispatch (series : List (Timestamp × ℚ)) (p : Params) :
    List HourlyRecord :=
  let s := sortByTime series
  dispatchLoop p (lowThresholdAt s p) (highThresholdAt s p) 0 s

/-- Sum of the `charge_energy_MWh` column. -/
def sumChargeEnergy (df : List HourlyRecord) : ℚ :=
  (df.map (fun r => r.charge_energy_MWh)).sum

/-- Sum of the `discharge_energy_MWh` column. -/
def sumDischargeEnergy (df : List HourlyRecord) : ℚ :=
  (df.map (fun r => r.discharge_energy_MWh)).sum

/-- Sum of the `net_revenue_$` column. -/
def totalNetRevenue (df : List HourlyRecord) : ℚ :=
  (df.map (fun r => r.net_revenue)).sum

/-- Sum of the `throughput_MWh` column. -/
def totalThroughput (df : List HourlyRecord) : ℚ :=
  (df.map (fun r => r.throughput_MWh)).sum

/-- SOC of the last record, or `dflt` for an empty table. -/
def lastSOC (dflt : ℚ) : List HourlyRecord → ℚ
  | [] => dflt
  | r :: rest => lastSOC r.SOC_MWh rest

/-- The calendar day of every record of the table. -/
def recordDays (df : List HourlyRecord) : List ℤ :=
  df.map (fun r => dayOf r.ts)

/-- The consecutive calendar days spanned by the table, from the earliest
record day to the latest: the bins created by `.resample("D")`. -/
def dayRange (df : List HourlyRecord) : List ℤ :=
  match recordDays df with
  | [] => []
  | d :: ds =>
    let lo := ds.foldl min d
    let hi := ds.foldl max d
    (List.range (hi - lo + 1).toNat).map (fun i : ℕ => lo + (i : ℤ))

/-- `days_active` as computed by `summarize_bess`:
`(discharge_MW > 0).astype(int).resample("D").sum().gt(0).sum()` — the number
of daily resample bins whose count of discharge-active hours is positive. -/
def days_active (df : List HourlyRecord) : ℕ :=
  (dayRange df).countP (fun d =>
    decide (0 < (df.filter (fun r => dayOf r.ts == d)).countP
      (fun r => decide (0 < r.discharge_MW))))

/-- Summary metrics returned by `summarize_bess` (before the presentational
`round(...)` applied to the report dict, which the spec marks as
reporting-only). -/
structure DispatchSummary where
  total_net_revenue : ℚ
  total_throughput : ℚ
  full_cycles : ℚ
  avg_soc : ℚ
  days : ℚ
  avg_daily_rev : ℚ
deriving Repr, DecidableEq

/-- `summarize_bess`.  The module-level constant `BESS_CAPACITY_MWh`
(computed from `config.yaml`, which is external to the source tree) is passed
as `globalCapacity`; note the function divides by this constant, not by a
per-run capacity (it receives only the hourly table). -/
def summarize_bess (globalCapacity : ℚ) (df : List HourlyRecord) :
    DispatchSummary :=
  let total_revenue := totalNetRevenue df
  let total_throughput := totalThroughput df
  let full_cycles := total_throughput / (2 * globalCapacity)
  let avg_soc := (df.map (fun r => r.SOC_MWh)).sum / (df.length : ℚ)
  let da : ℚ := (days_active df : ℚ)
  let avg_daily_rev := if da > 0 then total_revenue / da else 0
  ⟨total_revenue, total_throughput, full_cycles, avg_soc, da, avg_daily_rev⟩

/-- Modelled from the spec: the module-level configuration constants of
`src/bess.py` (lines 17–22) are read from `config.yaml`, a file that is not
part of the source tree; its values are abstracted as this structure.  The
derived constant `BESS_CAPACITY_MWh = capacity_mw * duration_hours`
(line 19) is `bessCapacity` below. -/
structure ModuleConfig where
  capacity_mw : ℚ
  duration_hours : ℚ
  charge_efficiency : ℚ
  discharge_efficiency : ℚ
deriving Repr, DecidableEq

/-- The module constant `BESS_CAPACITY_MWh = BESS_POWER_MW * BESS_DURATION_H`. -/
def bessCapacity (cfg : ModuleConfig) : ℚ := cfg.capacity_mw * cfg.duration_hours

/-- Error raised by `run_bess_model` (the `ValueError` for a too-short
series, named `InsufficientDataError` by the spec). -/
inductive RunError where
  | insufficientData : ℕ → RunError
deriving Repr, DecidableEq

/-- A raw input series: entries whose timestamp failed to parse under
`pd.to_datetime(..., errors="coerce")` carry `none` (NaT). -/
abbrev RawSeries := List (Option Timestamp × ℚ)

/-- Keep the entries with a parseable timestamp:
`price_series[price_series.index.notnull()]`. -/
def parseIndex (raw : RawSeries) : List (Timestamp × ℚ) :=
  raw.filterMap (fun r => r.1.map (fun t => (t, r.2)))

/-- Keep only the first entry of each timestamp, scanning left to right with
the set of timestamps already seen:
`price_series[~price_series.index.duplicated(keep="first")]`. -/
def dedupFirstAux (seen : List Timestamp) :
    List (Timestamp × ℚ) → List (Timestamp × ℚ)
  | [] => []
  | x :: xs =>
    if x.1 ∈ seen then dedupFirstAux seen xs
    else x :: dedupFirstAux (x.1 :: seen) xs

/-- Drop duplicate timestamps, keeping the first occurrence of each. -/
def dropDuplicateTimestamps (s : List (Timestamp × ℚ)) : List (Timestamp × ℚ) :=
  dedupFirstAux [] s

/-- The index sanitization of `run_bess_model` (lines 222–228): coerce the
index, drop unparseable timestamps, drop duplicate timestamps keeping the
first, sort ascending. -/
def sanitize_index (raw : RawSeries) : List (Timestamp × ℚ) :=
  sortByTime (dropDuplicateTimestamps (parseIndex raw))

/-- The parameters `run_bess_model` passes to `simulate_bess_dispatch`:
capacity, power and efficiencies are the module-level configuration defaults;
the threshold quantiles and the mode flag come from the caller. -/
def runParams (cfg : ModuleConfig) (use_daily : Bool) (lq hq : ℚ) : Params :=
  { capacity_MWh := bessCapacity cfg, power_MW := cfg.capacity_mw,
    charge_eff := cfg.charge_efficiency,
    discharge_eff := cfg.discharge_efficiency,
    low_q := lq, high_q := hq, use_daily_thresholds := use_daily }

/-- `run_bess_model`: sanitize the index, gate on ≥ 8000 rows, then simulate
with the module-default parameters (capacity, power and efficiencies from the
configuration; thresholds as passed by the caller) and summarize. -/
def run_bess_model (cfg : ModuleConfig) (use_daily : Bool) (lq hq : ℚ)
    (raw : RawSeries) : Except RunError (List HourlyRecord × DispatchSummary) :=
  let s := sanitize_index raw
  if s.length < 8000 then
    Except.error (RunError.insufficientData s.length)
  else
    let df := simulate_bess_dispatch s (runParams cfg use_daily lq hq)
    Except.ok (df, summarize_bess (bessCapacity cfg) df)

/-- Count of distinct calendar days containing at least one record with
nonzero grid discharge — `days_active` as the spec words it. -/
def distinctActiveDays (df : List HourlyRecord) : List ℤ :=
  ((df.filter (fun r => decide (0 < r.discharge_MW))).map
    (fun r => dayOf r.ts)).dedup

/-! ### Helper lemmas about the clamp and the step -/

theorem clampSOC_nonneg (cap soc : ℚ) : 0 ≤ clampSOC cap soc :=
  le_max_left 0 _

theorem clampSOC_le_cap (cap soc : ℚ) (hcap : 0 ≤ cap) : clampSOC cap soc ≤ cap :=
  max_le hcap (min_le_right _ _)

theorem clampSOC_eq_self (cap soc : ℚ) (h0 : 0 ≤ soc) (h1 : soc ≤ cap) :
    clampSOC cap soc = soc := by
  unfold clampSOC
  rw [min_eq_left h1, max_eq_right h0]

theorem stepBess_SOC_eq_clamp (p : Params) (low high price soc : ℚ) (t : Timestamp) :
    ∃ x, (stepBess p low high t price soc).2.SOC_MWh = clampSOC p.capacity_MWh x
      ∧ (stepBess p low high t price soc).1 = clampSOC p.capacity_MWh x := by
  unfold stepBess
  split_ifs <;> exact ⟨_, rfl, rfl⟩

theorem stepBess_throughput_split (p : Params) (low high price soc : ℚ)
    (t : Timestamp) :
    (stepBess p low high t price soc).2.throughput_MWh
      = (stepBess p low high t price soc).2.charge_energy_MWh
        + (stepBess p low high t price soc).2.discharge_energy_MWh := by
  unfold stepBess
  split_ifs <;> simp

theorem stepBess_exclusive (p : Params) (low high price soc : ℚ) (t : Timestamp) :
    (stepBess p low high t price soc).2.charge_MW = 0
      ∨ (stepBess p low high t price soc).2.discharge_MW = 0 := by
  unfold stepBess
  split_ifs with h1 h2
  · exact Or.inr rfl
  · exact Or.inl rfl
  · exact Or.inl rfl

theorem stepBess_delta (p : Params) (low high price soc : ℚ) (t : Timestamp)
    (hpow : 0 ≤ p.power_MW) (h0 : 0 ≤ soc) (h1 : soc ≤ p.capacity_MWh) :
    (stepBess p low high t price soc).2.charge_energy_MWh
        - (stepBess p low high t price soc).2.discharge_energy_MWh
      = (stepBess p low high t price soc).1 - soc
    ∧ (stepBess p low high t price soc).2.SOC_MWh
        = (stepBess p low high t price soc).1
    ∧ 0 ≤ (stepBess p low high t price soc).1
    ∧ (stepBess p low high t price soc).1 ≤ p.capacity_MWh := by
  unfold stepBess
  split_ifs with hc hd
  · have hmin0 : 0 ≤ min p.power_MW (p.capacity_MWh - soc) :=
      le_min hpow (by linarith [hc.2])
    have hminle : min p.power_MW (p.capacity_MWh - soc) ≤ p.capacity_MWh - soc :=
      min_le_right _ _
    have hclamp : clampSOC p.capacity_MWh (soc + min p.power_MW (p.capacity_MWh - soc))
        = soc + min p.power_MW (p.capacity_MWh - soc) :=
      clampSOC_eq_self _ _ (by linarith) (by linarith)
    simp only [hclamp]
    refine ⟨?_, ?_, ?_, ?_⟩ <;> first | trivial | linarith
  · have hmin0 : 0 ≤ min p.power_MW soc := le_min hpow (le_of_lt hd.2)
    have hminle : min p.power_MW soc ≤ soc := min_le_right _ _
    have hclamp : clampSOC p.capacity_MWh (soc - min p.power_MW soc)
        = soc - min p.power_MW soc :=
      clampSOC_eq_self _ _ (by linarith) (by linarith)
    simp only [hclamp]
    refine ⟨?_, ?_, ?_, ?_⟩ <;> first | trivial | linarith
  · have hclamp : clampSOC p.capacity_MWh soc = soc := clampSOC_eq_self _ _ h0 h1
    simp only [hclamp]
    refine ⟨?_, ?_, ?_, ?_⟩ <;> first | trivial | linarith

/-! ### C1: per-step transition semantics -/

/-- C1.  Each step of `simulate_bess_dispatch` with prior state `soc`:
if `price ≤ low` and `soc < capacity` it charges
(`energy_into_battery = min(power, capacity − soc)`, grid energy
`= energy_into_battery / charge_eff`, new SOC `= soc + energy_into_battery`,
charge cost `= grid energy × price`, zero discharge revenue); else if
`price ≥ high` and `soc > 0` it discharges
(`energy_from_battery = min(power, soc)`, grid energy
`= energy_from_battery × discharge_eff`, new SOC `= soc − energy_from_battery`,
discharge revenue `= grid energy × price`, zero charge cost); otherwise it
idles with the SOC unchanged and all energies and dollar flows zero.  The
record's net revenue equals discharge revenue minus charge cost. -/
theorem stepBess_spec (p : Params) (low high price soc : ℚ) (t : Timestamp)
    (soc1 : ℚ) (r : HourlyRecord)
    (hpow : 0 ≤ p.power_MW) (hsoc0 : 0 ≤ soc) (hsoccap : soc ≤ p.capacity_MWh)
    (hstep : stepBess p low high t price soc = (soc1, r)) :
    (price ≤ low ∧ soc < p.capacity_MWh →
       r.charge_energy_MWh = min p.power_MW (p.capacity_MWh - soc)
       ∧ r.charge_MW = min p.power_MW (p.capacity_MWh - soc) / p.charge_eff
       ∧ soc1 = soc + min p.power_MW (p.capacity_MWh - soc)
       ∧ r.SOC_MWh = soc1
       ∧ r.charge_cost = r.charge_MW * price
       ∧ r.discharge_rev = 0)
    ∧ (¬(price ≤ low ∧ soc < p.capacity_MWh) → high ≤ price ∧ 0 < soc →
       r.discharge_energy_MWh = min p.power_MW soc
       ∧ r.discharge_MW = min p.power_MW soc * p.discharge_eff
       ∧ soc1 = soc - min p.power_MW soc
       ∧ r.SOC_MWh = soc1
       ∧ r.discharge_rev = r.discharge_MW * price
       ∧ r.charge_cost = 0)
    ∧ (¬(price ≤ low ∧ soc < p.capacity_MWh) → ¬(high ≤ price ∧ 0 < soc) →
       soc1 = soc ∧ r.SOC_MWh = soc
       ∧ r.charge_MW = 0 ∧ r.discharge_MW = 0 ∧ r.charge_cost = 0
       ∧ r.discharge_rev = 0 ∧ r.charge_energy_MWh = 0
       ∧ r.discharge_energy_MWh = 0 ∧ r.throughput_MWh = 0)
    ∧ r.net_revenue = r.discharge_rev - r.charge_cost := by
  unfold stepBess at hstep
  split_ifs at hstep with hc hd
  · simp only [Prod.mk.injEq] at hstep
    obtain ⟨rfl, rfl⟩ := hstep
    have hmin0 : 0 ≤ min p.power_MW (p.capacity_MWh - soc) :=
      le_min hpow (by linarith [hc.2])
    have hminle : min p.power_MW (p.capacity_MWh - soc) ≤ p.capacity_MWh - soc :=
      min_le_right _ _
    have hclamp : clampSOC p.capacity_MWh (soc + min p.power_MW (p.capacity_MWh - soc))
        = soc + min p.power_MW (p.capacity_MWh - soc) :=
      clampSOC_eq_self _ _ (by linarith) (by linarith)
    refine ⟨fun _ => ?_, fun hn _ => absurd hc hn, fun hn _ => absurd hc hn, by simp⟩
    simp [hclamp]
  · simp only [Prod.mk.injEq] at hstep
    obtain ⟨rfl, rfl⟩ := hstep
    have hmin0 : 0 ≤ min p.power_MW soc := le_min hpow (le_of_lt hd.2)
    have hminle : min p.power_MW soc ≤ soc := min_le_right _ _
    have hclamp : clampSOC p.capacity_MWh (soc - min p.power_MW soc)
        = soc - min p.power_MW soc :=
      clampSOC_eq_self _ _ (by linarith) (by linarith)
    refine ⟨fun h => absurd h hc, fun _ hcond => ?_, fun _ hn => absurd ⟨hd.1, hd.2⟩ hn, by simp⟩
    simp [hclamp]
  · simp only [Prod.mk.injEq] at hstep
    obtain ⟨rfl, rfl⟩ := hstep
    have hclamp : clampSOC p.capacity_MWh soc = soc := clampSOC_eq_self _ _ hsoc0 hsoccap
    refine ⟨fun h => absurd h hc, fun _ h => absurd ⟨h.1, h.2⟩ hd, fun _ _ => ?_, by simp⟩
    simp [hclamp]

/-- Witness for C1: a concrete charging step (price 10 ≤ low 20, SOC 0 below
capacity 4) records 1 MWh into the battery at grid draw 1/(9/10) = 10/9. -/
theorem stepBess_spec_witness :
    (0:ℚ) ≤ (1:ℚ)
    ∧ ((10:ℚ) ≤ (20:ℚ) ∧ (0:ℚ) < (4:ℚ))
    ∧ (stepBess ⟨4, 1, 9/10, 9/10, 1/4, 3/4, false⟩ 20 50 0 10 0).2.charge_MW
        = 10/9 := by
  refine ⟨by norm_num, ⟨by norm_num, by norm_num⟩, ?_⟩
  have h := (stepBess_spec ⟨4, 1, 9/10, 9/10, 1/4, 3/4, false⟩ 20 50 10 0 0
      (stepBess ⟨4, 1, 9/10, 9/10, 1/4, 3/4, false⟩ 20 50 0 10 0).1
      (stepBess ⟨4, 1, 9/10, 9/10, 1/4, 3/4, false⟩ 20 50 0 10 0).2
      (by norm_num) (by norm_num) (by norm_num) rfl).1 ⟨by norm_num, by norm_num⟩
  rw [h.2.1]
  norm_num

/-! ### Loop unfolding helpers -/

theorem dispatchLoop_cons (p : Params) (lowF highF : Timestamp → ℚ)
    (soc : ℚ) (t : Timestamp) (price : ℚ) (xs : List (Timestamp × ℚ)) :
    dispatchLoop p lowF highF soc ((t, price) :: xs)
      = (stepBess p (lowF t) (highF t) t price soc).2
        :: dispatchLoop p lowF highF (stepBess p (lowF t) (highF t) t price soc).1 xs :=
  rfl

theorem sumChargeEnergy_cons (r : HourlyRecord) (l : List HourlyRecord) :
    sumChargeEnergy (r :: l) = r.charge_energy_MWh + sumChargeEnergy l := by
  simp [sumChargeEnergy]

theorem sumDischargeEnergy_cons (r : HourlyRecord) (l : List HourlyRecord) :
    sumDischargeEnergy (r :: l) = r.discharge_energy_MWh + sumDischargeEnergy l := by
  simp [sumDischargeEnergy]

theorem totalThroughput_cons (r : HourlyRecord) (l : List HourlyRecord) :
    totalThroughput (r :: l) = r.throughput_MWh + totalThroughput l := by
  simp [totalThroughput]

theorem lastSOC_cons (d : ℚ) (r : HourlyRecord) (l : List HourlyRecord) :
    lastSOC d (r :: l) = lastSOC r.SOC_MWh l :=
  rfl

theorem mem_dispatchLoop (p : Params) (lowF highF : Timestamp → ℚ) :
    ∀ (l : List (Timestamp × ℚ)) (soc : ℚ) (r : HourlyRecord),
      r ∈ dispatchLoop p lowF highF soc l →
      ∃ low high t price s0, r = (stepBess p low high t price s0).2 := by
  intro l
  induction l with
  | nil => intro soc r hr; simp [dispatchLoop] at hr
  | cons x xs ih =>
    obtain ⟨t, price⟩ := x
    intro soc r hr
    rw [dispatchLoop_cons] at hr
    rcases List.mem_cons.1 hr with h | h
    · exact ⟨lowF t, highF t, t, price, soc, h⟩
    · exact ih _ r h

/-! ### C2: SOC bounds invariant -/

/-- C2.  With capacity ≥ 0 and initial SOC = 0, every record produced by
`simulate_bess_dispatch` has 0 ≤ SOC ≤ capacity: the SOC is clamped to
`[0, capacity]` after every step before it is recorded. -/
theorem simulate_soc_bounds (series : List (Timestamp × ℚ)) (p : Params)
    (hcap : 0 ≤ p.capacity_MWh) :
    ∀ r ∈ simulate_bess_dispatch series p,
      0 ≤ r.SOC_MWh ∧ r.SOC_MWh ≤ p.capacity_MWh := by
  intro r hr
  have hr' : r ∈ dispatchLoop p (lowThresholdAt (sortByTime series) p)
      (highThresholdAt (sortByTime series) p) 0 (sortByTime series) := hr
  obtain ⟨low, high, t, price, s0, rfl⟩ := mem_dispatchLoop _ _ _ _ _ _ hr'
  obtain ⟨x, hx, -⟩ := stepBess_SOC_eq_clamp p low high price s0 t
  rw [hx]
  exact ⟨clampSOC_nonneg _ _, clampSOC_le_cap _ _ hcap⟩

/-- Witness for C2: on a concrete two-hour series the first record's SOC is
within bounds. -/
theorem simulate_soc_bounds_witness :
    (0:ℚ) ≤ (4:ℚ)
    ∧ ∀ r ∈ simulate_bess_dispatch [(0, 1), (1, 100)]
        ⟨4, 4, 1, 1, 1/4, 3/4, false⟩, 0 ≤ r.SOC_MWh ∧ r.SOC_MWh ≤ (4:ℚ) :=
  ⟨by norm_num,
   simulate_soc_bounds [(0, 1), (1, 100)] ⟨4, 4, 1, 1, 1/4, 3/4, false⟩
     (by norm_num)⟩

/-! ### C3: exclusivity and charge priority -/

/-- C3.  In every record at most one of grid charge and grid discharge is
nonzero; and when both the charge condition (`price ≤ low`, `soc < capacity`)
and the discharge condition (`price ≥ high`, `soc > 0`) hold at a step —
which forces the degenerate configuration `high ≤ low` — the step charges,
because the charge condition is checked first. -/
theorem dispatch_exclusive_charge_priority (series : List (Timestamp × ℚ))
    (p : Params) :
    (∀ r ∈ simulate_bess_dispatch series p,
      r.charge_MW = 0 ∨ r.discharge_MW = 0)
    ∧ (∀ low high price soc : ℚ, ∀ t : Timestamp,
        price ≤ low ∧ soc < p.capacity_MWh → high ≤ price ∧ 0 < soc →
        high ≤ low
        ∧ (stepBess p low high t price soc).2.charge_energy_MWh
            = min p.power_MW (p.capacity_MWh - soc)
        ∧ (stepBess p low high t price soc).2.discharge_MW = 0
        ∧ (stepBess p low high t price soc).2.discharge_energy_MWh = 0) := by
  constructor
  · intro r hr
    have hr' : r ∈ dispatchLoop p (lowThresholdAt (sortByTime series) p)
        (highThresholdAt (sortByTime series) p) 0 (sortByTime series) := hr
    obtain ⟨low, high, t, price, s0, rfl⟩ := mem_dispatchLoop _ _ _ _ _ _ hr'
    exact stepBess_exclusive p low high price s0 t
  · intro low high price soc t hc hd
    refine ⟨le_trans hd.1 hc.1, ?_⟩
    unfold stepBess
    rw [if_pos hc]
    exact ⟨rfl, rfl, rfl⟩

/-- Witness for C3: a degenerate configuration (low 50 ≥ high 20, price 30
between them, SOC 2 strictly inside (0, 4)) satisfies both conditions and the
step charges, leaving grid discharge at zero. -/
theorem dispatch_exclusive_charge_priority_witness :
    ((30:ℚ) ≤ 50 ∧ (2:ℚ) < 4) ∧ ((20:ℚ) ≤ 30 ∧ (0:ℚ) < 2)
    ∧ (20:ℚ) ≤ 50
    ∧ (stepBess ⟨4, 1, 9/10, 9/10, 1/4, 3/4, false⟩ 50 20 7 30 2).2.discharge_MW
        = 0 := by
  have h := (dispatch_exclusive_charge_priority []
      ⟨4, 1, 9/10, 9/10, 1/4, 3/4, false⟩).2 50 20 30 2 7
      ⟨by norm_num, by norm_num⟩ ⟨by norm_num, by norm_num⟩
  exact ⟨⟨by norm_num, by norm_num⟩, ⟨by norm_num, by norm_num⟩, h.1, h.2.2.1⟩

/-! ### C4: energy conservation -/

theorem dispatchLoop_conservation (p : Params) (lowF highF : Timestamp → ℚ)
    (hpow : 0 ≤ p.power_MW) :
    ∀ (l : List (Timestamp × ℚ)) (soc : ℚ), 0 ≤ soc → soc ≤ p.capacity_MWh →
      sumChargeEnergy (dispatchLoop p lowF highF soc l)
          - sumDischargeEnergy (dispatchLoop p lowF highF soc l)
        = lastSOC soc (dispatchLoop p lowF highF soc l) - soc := by
  intro l
  induction l with
  | nil =>
    intro soc h0 h1
    simp [dispatchLoop, sumChargeEnergy, sumDischargeEnergy, lastSOC]
  | cons x xs ih =>
    obtain ⟨t, price⟩ := x
    intro soc h0 h1
    obtain ⟨hdelta, hsocfield, h0', h1'⟩ :=
      stepBess_delta p (lowF t) (highF t) price soc t hpow h0 h1
    have ihh := ih (stepBess p (lowF t) (highF t) t price soc).1 h0' h1'
    rw [dispatchLoop_cons, sumChargeEnergy_cons, sumDischargeEnergy_cons,
      lastSOC_cons, hsocfield]
    linarith

/-- C4.  Over a whole run the sum of internal charge energy minus the sum of
internal discharge energy equals the final SOC minus the initial SOC (0):
energy is conserved, the post-step clamp never altering the balance (within
the physical parameter range power ≥ 0, capacity ≥ 0 the clamp is the
identity on every reachable SOC). -/
theorem dispatch_energy_conservation (series : List (Timestamp × ℚ))
    (p : Params) (hpow : 0 ≤ p.power_MW) (hcap : 0 ≤ p.capacity_MWh) :
    sumChargeEnergy (simulate_bess_dispatch series p)
        - sumDischargeEnergy (simulate_bess_dispatch series p)
      = lastSOC 0 (simulate_bess_dispatch series p) - 0 := by
  have h := dispatchLoop_conservation p (lowThresholdAt (sortByTime series) p)
    (highThresholdAt (sortByTime series) p) hpow (sortByTime series) 0
    le_rfl hcap
  exact h

/-- Witness for C4: conservation instantiated on a concrete two-hour run. -/
theorem dispatch_energy_conservation_witness :
    (0:ℚ) ≤ 4 ∧ (0:ℚ) ≤ 4
    ∧ sumChargeEnergy (simulate_bess_dispatch [(0, 1), (1, 100)]
          ⟨4, 4, 1, 1, 1/4, 3/4, false⟩)
        - sumDischargeEnergy (simulate_bess_dispatch [(0, 1), (1, 100)]
          ⟨4, 4, 1, 1, 1/4, 3/4, false⟩)
      = lastSOC 0 (simulate_bess_dispatch [(0, 1), (1, 100)]
          ⟨4, 4, 1, 1, 1/4, 3/4, false⟩) - 0 :=
  ⟨by norm_num, by norm_num,
   dispatch_energy_conservation [(0, 1), (1, 100)]
     ⟨4, 4, 1, 1, 1/4, 3/4, false⟩ (by norm_num) (by norm_num)⟩

/-! ### C5: threshold correctness -/

theorem lookup_map_self (f : ℤ → ℚ) :
    ∀ (ds : List ℤ) (d : ℤ), d ∈ ds →
      (ds.map (fun x => (x, f x))).lookup d = some (f d) := by
  intro ds
  induction ds with
  | nil => intro d hd; simp at hd
  | cons a as ih =>
    intro d hd
    by_cases h : d = a
    · subst h
      simp [List.lookup]
    · have hba : (d == a) = false := beq_eq_false_iff_ne.mpr h
      have hd' : d ∈ as := by
        rcases List.mem_cons.1 hd with h' | h'
        · exact absurd h' h
        · exact h'
      simpa [List.lookup, hba] using ih d hd'

/-- C5.  In global mode the thresholds applied at every hour are the
linear-interpolation quantiles at `low_q` / `high_q` of the entire price
series; in daily mode the thresholds applied at an hour are the quantiles of
only that hour's calendar day's prices (whatever samples exist for that day).
The final conjunct records that `simulate_bess_dispatch` applies exactly
these per-timestamp thresholds in its dispatch loop. -/
theorem threshold_correctness (s : List (Timestamp × ℚ)) (p : Params)
    (t : Timestamp) (price : ℚ) :
    (p.use_daily_thresholds = false →
      lowThresholdAt s p t = quantile (s.map (fun r => r.2)) p.low_q
      ∧ highThresholdAt s p t = quantile (s.map (fun r => r.2)) p.high_q)
    ∧ (p.use_daily_thresholds = true → (t, price) ∈ s →
      lowThresholdAt s p t = quantile (pricesOfDay s (dayOf t)) p.low_q
      ∧ highThresholdAt s p t = quantile (pricesOfDay s (dayOf t)) p.high_q)
    ∧ simulate_bess_dispatch s p
        = dispatchLoop p (lowThresholdAt (sortByTime s) p)
            (highThresholdAt (sortByTime s) p) 0 (sortByTime s) := by
  refine ⟨fun hmode => ?_, fun hmode hmem => ?_, rfl⟩
  · constructor <;> simp [lowThresholdAt, highThresholdAt, hmode]
  · have hday : dayOf t ∈ daysOf s := by
      simp only [daysOf, List.mem_dedup, List.mem_map]
      exact ⟨(t, price), hmem, rfl⟩
    constructor
    · rw [lowThresholdAt, if_pos hmode, thresholdTable,
        lookup_map_self _ _ _ hday, Option.getD_some]
    · rw [highThresholdAt, if_pos hmode, thresholdTable,
        lookup_map_self _ _ _ hday, Option.getD_some]

/-- Witness for C5: in daily mode on a series spanning two calendar days, the
threshold applied at hour 25 (day 1) is the quantile of day 1's single price. -/
theorem threshold_correctness_witness :
    ((25:ℤ), (30:ℚ)) ∈ [((0:ℤ), (10:ℚ)), (1, 20), (25, 30)]
    ∧ lowThresholdAt [((0:ℤ), (10:ℚ)), (1, 20), (25, 30)]
        ⟨4, 1, 9/10, 9/10, 1/2, 3/4, true⟩ 25
      = quantile (pricesOfDay [((0:ℤ), (10:ℚ)), (1, 20), (25, 30)] (dayOf 25))
          (1/2) := by
  have hmem : ((25:ℤ), (30:ℚ)) ∈ [((0:ℤ), (10:ℚ)), (1, 20), (25, 30)] := by
    simp
  exact ⟨hmem,
    ((threshold_correctness [((0:ℤ), (10:ℚ)), (1, 20), (25, 30)]
      ⟨4, 1, 9/10, 9/10, 1/2, 3/4, true⟩ 25 30).2.1 rfl hmem).1⟩

/-! ### C6: full-cycle count -/

theorem dispatchLoop_throughput (p : Params) (lowF highF : Timestamp → ℚ) :
    ∀ (l : List (Timestamp × ℚ)) (soc : ℚ),
      totalThroughput (dispatchLoop p lowF highF soc l)
        = sumChargeEnergy (dispatchLoop p lowF highF soc l)
          + sumDischargeEnergy (dispatchLoop p lowF highF soc l) := by
  intro l
  induction l with
  | nil =>
    intro soc
    simp [dispatchLoop, totalThroughput, sumChargeEnergy, sumDischargeEnergy]
  | cons x xs ih =>
    obtain ⟨t, price⟩ := x
    intro soc
    rw [dispatchLoop_cons, totalThroughput_cons, sumChargeEnergy_cons,
      sumDischargeEnergy_cons, stepBess_throughput_split, ih]
    ring

/-- C6 (amended).  The summary's full-cycle count equals the total per-step
throughput — equivalently the total internal charge energy plus the total
internal discharge energy — divided by twice the module-level configured
capacity `BESS_CAPACITY_MWh`, not by the capacity of the run; the two agree
exactly when the run used the configured capacity (as `run_bess_model`'s
default path does). -/
theorem full_cycles_global_capacity (g : ℚ) (series : List (Timestamp × ℚ))
    (p : Params) :
    (summarize_bess g (simulate_bess_dispatch series p)).full_cycles
      = (sumChargeEnergy (simulate_bess_dispatch series p)
          + sumDischargeEnergy (simulate_bess_dispatch series p)) / (2 * g)
    ∧ (p.capacity_MWh = g →
      (summarize_bess g (simulate_bess_dispatch series p)).full_cycles
        = totalThroughput (simulate_bess_dispatch series p)
            / (2 * p.capacity_MWh)) := by
  constructor
  · have h := dispatchLoop_throughput p (lowThresholdAt (sortByTime series) p)
      (highThresholdAt (sortByTime series) p) (sortByTime series) 0
    show totalThroughput (simulate_bess_dispatch series p) / (2 * g) = _
    rw [show simulate_bess_dispatch series p
        = dispatchLoop p (lowThresholdAt (sortByTime series) p)
            (highThresholdAt (sortByTime series) p) 0 (sortByTime series) from rfl,
      h]
  · intro hg
    rw [hg]
    rfl

/-- Witness for C6's amended claim: with the run capacity equal to the
configured capacity (both 4), the full-cycle count is throughput over twice
the run capacity. -/
theorem full_cycles_global_capacity_witness :
    (⟨4, 4, 1, 1, 1/4, 3/4, false⟩ : Params).capacity_MWh = (4:ℚ)
    ∧ (summarize_bess 4 (simulate_bess_dispatch [(0, 1), (1, 100)]
        ⟨4, 4, 1, 1, 1/4, 3/4, false⟩)).full_cycles
      = totalThroughput (simulate_bess_dispatch [(0, 1), (1, 100)]
          ⟨4, 4, 1, 1, 1/4, 3/4, false⟩)
        / (2 * (⟨4, 4, 1, 1, 1/4, 3/4, false⟩ : Params).capacity_MWh) :=
  ⟨rfl, (full_cycles_global_capacity 4 [(0, 1), (1, 100)]
    ⟨4, 4, 1, 1, 1/4, 3/4, false⟩).2 rfl⟩

/-- Counterexample to C6 as stated: a two-hour run with run capacity 4 under
a module configuration whose `BESS_CAPACITY_MWh` is 8.  The summary reports
8 / (2·8) = 1/2 full cycles, while throughput over twice the run capacity is
8 / (2·4) = 1. -/
theorem full_cycles_capacity_counterexample :
    (summarize_bess 8 (simulate_bess_dispatch [(0, 1), (1, 100)]
        ⟨4, 4, 1, 1, 1/4, 3/4, false⟩)).full_cycles = 1/2
    ∧ totalThroughput (simulate_bess_dispatch [(0, 1), (1, 100)]
        ⟨4, 4, 1, 1, 1/4, 3/4, false⟩)
        / (2 * (⟨4, 4, 1, 1, 1/4, 3/4, false⟩ : Params).capacity_MWh) = 1
    ∧ ((1:ℚ)/2) ≠ 1 := by
  refine ⟨?_, ?_, by norm_num⟩ <;>
    norm_num [summarize_bess, totalThroughput, simulate_bess_dispatch,
      dispatchLoop, stepBess, lowThresholdAt, highThresholdAt, sortByTime,
      insertByTime, quantile, sortRat, insertRat, clampSOC]

/-! ### C7: days-active accounting -/

theorem foldl_min_spec (ds : List ℤ) :
    ∀ d : ℤ, ds.foldl min d ≤ d ∧ ∀ x ∈ ds, ds.foldl min d ≤ x := by
  induction ds with
  | nil => intro d; simp
  | cons a as ih =>
    intro d
    simp only [List.foldl_cons]
    have h := ih (min d a)
    refine ⟨le_trans h.1 (min_le_left _ _), ?_⟩
    intro x hx
    rcases List.mem_cons.1 hx with rfl | hx'
    · exact le_trans h.1 (min_le_right _ _)
    · exact h.2 x hx'

theorem foldl_max_spec (ds : List ℤ) :
    ∀ d : ℤ, d ≤ ds.foldl max d ∧ ∀ x ∈ ds, x ≤ ds.foldl max d := by
  induction ds with
  | nil => intro d; simp
  | cons a as ih =>
    intro d
    simp only [List.foldl_cons]
    have h := ih (max d a)
    refine ⟨le_trans (le_max_left _ _) h.1, ?_⟩
    intro x hx
    rcases List.mem_cons.1 hx with rfl | hx'
    · exact le_trans (le_max_right _ _) h.1
    · exact h.2 x hx'

theorem mem_dayRange_of_mem_recordDays (df : List HourlyRecord) (d : ℤ)
    (hd : d ∈ recordDays df) : d ∈ dayRange df := by
  unfold dayRange
  rcases hrd : recordDays df with _ | ⟨d0, ds⟩
  · rw [hrd] at hd; simp at hd
  · rw [hrd] at hd
    have hlo : ds.foldl min d0 ≤ d := by
      rcases List.mem_cons.1 hd with rfl | hd'
      · exact (foldl_min_spec ds d).1
      · exact (foldl_min_spec ds d0).2 d hd'
    have hhi : d ≤ ds.foldl max d0 := by
      rcases List.mem_cons.1 hd with rfl | hd'
      · exact (foldl_max_spec ds d).1
      · exact (foldl_max_spec ds d0).2 d hd'
    refine List.mem_map.2 ⟨(d - ds.foldl min d0).toNat, List.mem_range.2 ?_, ?_⟩
    · omega
    · omega

theorem nodup_dayRange (df : List HourlyRecord) : (dayRange df).Nodup := by
  unfold dayRange
  rcases recordDays df with _ | ⟨d0, ds⟩
  · exact List.nodup_nil
  · exact (List.nodup_range _).map (fun a b h => by omega)

theorem days_active_eq_distinct (df : List HourlyRecord) :
    days_active df = (distinctActiveDays df).length := by
  unfold days_active
  have hcongr : (dayRange df).countP (fun d =>
      decide (0 < (df.filter (fun r => dayOf r.ts == d)).countP
        (fun r => decide (0 < r.discharge_MW))))
      = (dayRange df).countP (fun d =>
          decide (d ∈ (df.filter (fun r => decide (0 < r.discharge_MW))).map
            (fun r => dayOf r.ts))) := by
    apply List.countP_congr
    intro d hd
    simp only [decide_eq_true_eq, List.countP_pos_iff, List.mem_filter,
      List.mem_map, beq_iff_eq, decide_eq_true_eq]
    constructor
    · rintro ⟨r, ⟨hrdf, hday⟩, hdis⟩
      exact ⟨r, ⟨hrdf, hdis⟩, hday⟩
    · rintro ⟨r, ⟨hrdf, hdis⟩, hday⟩
      exact ⟨r, ⟨hrdf, hday⟩, hdis⟩
  rw [hcongr, List.countP_eq_length_filter]
  have hsub : ∀ d ∈ (df.filter (fun r => decide (0 < r.discharge_MW))).map
      (fun r => dayOf r.ts), d ∈ dayRange df := by
    intro d hd
    apply mem_dayRange_of_mem_recordDays
    obtain ⟨r, hr, rfl⟩ := List.mem_map.1 hd
    exact List.mem_map.2 ⟨r, (List.mem_filter.1 hr).1, rfl⟩
  have hperm : List.Perm ((dayRange df).filter (fun d =>
      decide (d ∈ (df.filter (fun r => decide (0 < r.discharge_MW))).map
        (fun r => dayOf r.ts))))
      (distinctActiveDays df) := by
    apply (List.perm_ext_iff_of_nodup
      ((nodup_dayRange df).filter _) (List.nodup_dedup _)).2
    intro a
    simp only [List.mem_filter, decide_eq_true_eq, List.mem_dedup,
      distinctActiveDays]
    constructor
    · rintro ⟨-, h⟩; exact h
    · intro h; exact ⟨hsub a h, h⟩
  rw [hperm.length_eq]

/-- C7.  `summarize_bess` computes `days_active` as the number of distinct
calendar days containing at least one record with nonzero grid discharge,
and reports the average daily net revenue as total net revenue over
`days_active` when that count is positive and as exactly 0 when it is zero
(no division-by-zero). -/
theorem summarize_days_active_spec (g : ℚ) (df : List HourlyRecord) :
    (summarize_bess g df).days = ((distinctActiveDays df).length : ℚ)
    ∧ ((distinctActiveDays df).length = 0 →
        (summarize_bess g df).avg_daily_rev = 0)
    ∧ (0 < (distinctActiveDays df).length →
        (summarize_bess g df).avg_daily_rev
          = totalNetRevenue df / ((distinctActiveDays df).length : ℚ)) := by
  have hda := days_active_eq_distinct df
  refine ⟨?_, fun h0 => ?_, fun hpos => ?_⟩
  · show ((days_active df : ℕ) : ℚ) = _
    rw [hda]
  · show (if ((days_active df : ℕ) : ℚ) > 0 then
        totalNetRevenue df / ((days_active df : ℕ) : ℚ) else 0) = 0
    rw [hda, h0]
    norm_num
  · show (if ((days_active df : ℕ) : ℚ) > 0 then
        totalNetRevenue df / ((days_active df : ℕ) : ℚ) else 0)
      = totalNetRevenue df / ((distinctActiveDays df).length : ℚ)
    rw [hda, if_pos (by exact_mod_cast hpos)]

/-- Witness for C7: a single record discharging 1 MW on day 0 with net
revenue 5 yields one active day and average daily revenue 5. -/
theorem summarize_days_active_spec_witness :
    0 < (distinctActiveDays [⟨0, 0, 0, 0, 1, 0, 5, 5, 0, 0, 0⟩]).length
    ∧ (summarize_bess 8 [⟨0, 0, 0, 0, 1, 0, 5, 5, 0, 0, 0⟩]).avg_daily_rev
      = totalNetRevenue [⟨0, 0, 0, 0, 1, 0, 5, 5, 0, 0, 0⟩]
        / ((distinctActiveDays [⟨0, 0, 0, 0, 1, 0, 5, 5, 0, 0, 0⟩]).length : ℚ) := by
  have hpos : 0 < (distinctActiveDays [⟨0, 0, 0, 0, 1, 0, 5, 5, 0, 0, 0⟩]).length := by
    norm_num [distinctActiveDays]
  exact ⟨hpos,
    (summarize_days_active_spec 8 [⟨0, 0, 0, 0, 1, 0, 5, 5, 0, 0, 0⟩]).2.2 hpos⟩

/-! ### C8: series-length gate of the orchestrator -/

/-- C8.  `run_bess_model` fails with the insufficient-data error when the
sanitized series has fewer than 8000 samples, and proceeds to dispatch and
summary (returning their results) when it has at least 8000. -/
theorem run_bess_model_length_gate (cfg : ModuleConfig) (ud : Bool)
    (lq hq : ℚ) (raw : RawSeries) :
    ((sanitize_index raw).length < 8000 →
      run_bess_model cfg ud lq hq raw
        = Except.error (RunError.insufficientData (sanitize_index raw).length))
    ∧ (8000 ≤ (sanitize_index raw).length →
      run_bess_model cfg ud lq hq raw
        = Except.ok
            (simulate_bess_dispatch (sanitize_index raw) (runParams cfg ud lq hq),
             summarize_bess (bessCapacity cfg)
               (simulate_bess_dispatch (sanitize_index raw)
                 (runParams cfg ud lq hq)))) := by
  constructor
  · intro h
    simp [run_bess_model, if_pos h]
  · intro h
    simp [run_bess_model, Nat.not_lt.2 h]

/-- Witness for C8: the empty raw series sanitizes to length 0 < 8000 and the
orchestrator returns the insufficient-data error. -/
theorem run_bess_model_length_gate_witness :
    (sanitize_index ([] : RawSeries)).length < 8000
    ∧ run_bess_model ⟨100, 4, 9/10, 9/10⟩ false (1/4) (3/4) []
      = Except.error
          (RunError.insufficientData (sanitize_index ([] : RawSeries)).length) :=
  ⟨by decide,
   (run_bess_model_length_gate ⟨100, 4, 9/10, 9/10⟩ false (1/4) (3/4) []).1
     (by decide)⟩

/-! ### C9: absence of parameter validation -/

theorem length_insertByTime (x : Timestamp × ℚ) :
    ∀ l : List (Timestamp × ℚ), (insertByTime x l).length = l.length + 1 := by
  intro l
  induction l with
  | nil => rfl
  | cons y ys ih =>
    unfold insertByTime
    by_cases h : x.1 ≤ y.1
    · rw [if_pos h]
      simp
    · rw [if_neg h]
      simp [ih]

theorem length_sortByTime :
    ∀ l : List (Timestamp × ℚ), (sortByTime l).length = l.length := by
  intro l
  induction l with
  | nil => rfl
  | cons x xs ih =>
    unfold sortByTime
    rw [length_insertByTime, ih, List.length_cons]

theorem length_dispatchLoop (p : Params) (lowF highF : Timestamp → ℚ) :
    ∀ (l : List (Timestamp × ℚ)) (soc : ℚ),
      (dispatchLoop p lowF highF soc l).length = l.length := by
  intro l
  induction l with
  | nil => intro soc; rfl
  | cons x xs ih =>
    obtain ⟨t, price⟩ := x
    intro soc
    rw [dispatchLoop_cons, List.length_cons, ih, List.length_cons]

/-- C9 (amended).  `simulate_bess_dispatch` never raises a configuration
error and performs no parameter validation: for every parameter values on
the program's defined arithmetic domain — `charge_eff ≠ 0`, so the charge
branch's float division is defined, and quantile fractions within `[0, 1]`,
where pandas `Series.quantile` is defined — including non-physical ones such
as efficiencies above 1, negative efficiencies, non-positive capacity or
power, or `low_q ≥ high_q`, it silently computes a full hourly table with
exactly one record per input hour.  (Off that domain the program fails with
a `ZeroDivisionError` or a pandas `ValueError`, not a configuration error.) -/
theorem simulate_no_parameter_validation (series : List (Timestamp × ℚ))
    (p : Params) (_heff : p.charge_eff ≠ 0)
    (_hlq : 0 ≤ p.low_q ∧ p.low_q ≤ 1) (_hhq : 0 ≤ p.high_q ∧ p.high_q ≤ 1) :
    (simulate_bess_dispatch series p).length = series.length := by
  show (dispatchLoop p (lowThresholdAt (sortByTime series) p)
    (highThresholdAt (sortByTime series) p) 0 (sortByTime series)).length = _
  rw [length_dispatchLoop, length_sortByTime]

/-- Witness for C9's amended claim: the non-physical but computable
parameters of the counterexample (charge efficiency 2 > 1) yield a record
for each of the two input hours. -/
theorem simulate_no_parameter_validation_witness :
    (⟨4, 4, 2, 1, 1/4, 3/4, false⟩ : Params).charge_eff ≠ 0
    ∧ (0 ≤ (⟨4, 4, 2, 1, 1/4, 3/4, false⟩ : Params).low_q
        ∧ (⟨4, 4, 2, 1, 1/4, 3/4, false⟩ : Params).low_q ≤ 1)
    ∧ (0 ≤ (⟨4, 4, 2, 1, 1/4, 3/4, false⟩ : Params).high_q
        ∧ (⟨4, 4, 2, 1, 1/4, 3/4, false⟩ : Params).high_q ≤ 1)
    ∧ (simulate_bess_dispatch [(0, 1), (1, 100)]
        ⟨4, 4, 2, 1, 1/4, 3/4, false⟩).length = 2 :=
  ⟨by norm_num, ⟨by norm_num, by norm_num⟩, ⟨by norm_num, by norm_num⟩,
   (simulate_no_parameter_validation [(0, 1), (1, 100)]
     ⟨4, 4, 2, 1, 1/4, 3/4, false⟩ (by norm_num)
     ⟨by norm_num, by norm_num⟩ ⟨by norm_num, by norm_num⟩).trans rfl⟩

/-- Counterexample to C9 as stated: with the non-physical charge efficiency
2 (> 1) the simulation raises nothing and silently produces records with
nonzero energy flows (grid charge 4/2 = 2 in hour 0, grid discharge 4 in
hour 1). -/
theorem no_configuration_error_counterexample :
    (1:ℚ) < (⟨4, 4, 2, 1, 1/4, 3/4, false⟩ : Params).charge_eff
    ∧ (simulate_bess_dispatch [(0, 1), (1, 100)]
        ⟨4, 4, 2, 1, 1/4, 3/4, false⟩).map
          (fun r => (r.charge_MW, r.discharge_MW))
      = [(2, 0), (0, 4)] := by
  constructor
  · norm_num
  · norm_num [simulate_bess_dispatch, dispatchLoop, stepBess, lowThresholdAt,
      highThresholdAt, sortByTime, insertByTime, quantile, sortRat, insertRat,
      clampSOC]

/-! ### C10: index sanitization -/

theorem insertByTime_perm (x : Timestamp × ℚ) :
    ∀ l : List (Timestamp × ℚ), List.Perm (insertByTime x l) (x :: l) := by
  intro l
  induction l with
  | nil => exact List.Perm.refl _
  | cons y ys ih =>
    unfold insertByTime
    by_cases h : x.1 ≤ y.1
    · rw [if_pos h]
    · rw [if_neg h]
      exact (ih.cons y).trans (List.Perm.swap x y ys)

theorem sortByTime_perm :
    ∀ l : List (Timestamp × ℚ), List.Perm (sortByTime l) l := by
  intro l
  induction l with
  | nil => exact List.Perm.refl _
  | cons x xs ih =>
    exact (insertByTime_perm x (sortByTime xs)).trans (ih.cons x)

theorem pairwise_insertByTime (x : Timestamp × ℚ) :
    ∀ l : List (Timestamp × ℚ),
      l.Pairwise (fun a b => a.1 ≤ b.1) →
      (insertByTime x l).Pairwise (fun a b => a.1 ≤ b.1) := by
  intro l
  induction l with
  | nil => intro _; simp [insertByTime]
  | cons y ys ih =>
    intro hp
    obtain ⟨hy, hys⟩ := List.pairwise_cons.1 hp
    unfold insertByTime
    by_cases h : x.1 ≤ y.1
    · rw [if_pos h]
      refine List.pairwise_cons.2 ⟨?_, hp⟩
      intro z hz
      rcases List.mem_cons.1 hz with rfl | hz'
      · exact h
      · exact le_trans h (hy z hz')
    · rw [if_neg h]
      have hyx : y.1 ≤ x.1 := le_of_not_le h
      refine List.pairwise_cons.2 ⟨?_, ih hys⟩
      intro z hz
      rcases List.mem_cons.1 ((insertByTime_perm x ys).mem_iff.1 hz) with rfl | hz'
      · exact hyx
      · exact hy z hz'

theorem pairwise_sortByTime (l : List (Timestamp × ℚ)) :
    (sortByTime l).Pairwise (fun a b => a.1 ≤ b.1) := by
  induction l with
  | nil => simp [sortByTime]
  | cons x xs ih => exact pairwise_insertByTime x (sortByTime xs) ih

theorem dedupFirstAux_keys :
    ∀ (l : List (Timestamp × ℚ)) (seen : List Timestamp),
      (dedupFirstAux seen l).Pairwise (fun a b => a.1 ≠ b.1)
      ∧ ∀ x ∈ dedupFirstAux seen l, x.1 ∉ seen := by
  intro l
  induction l with
  | nil => intro seen; simp [dedupFirstAux]
  | cons x xs ih =>
    intro seen
    unfold dedupFirstAux
    by_cases h : x.1 ∈ seen
    · rw [if_pos h]
      exact ih seen
    · rw [if_neg h]
      obtain ⟨hp, hmem⟩ := ih (x.1 :: seen)
      constructor
      · refine List.pairwise_cons.2 ⟨?_, hp⟩
        intro z hz heq
        exact hmem z hz (heq ▸ List.mem_cons_self _ _)
      · intro z hz
        rcases List.mem_cons.1 hz with rfl | hz'
        · exact h
        · exact fun hzs => hmem z hz' (List.mem_cons_of_mem _ hzs)

theorem mem_dedupFirstAux :
    ∀ (l : List (Timestamp × ℚ)) (seen : List Timestamp) (t : Timestamp)
      (pr : ℚ),
      (t, pr) ∈ dedupFirstAux seen l
        ↔ t ∉ seen ∧ l.find? (fun x => x.1 == t) = some (t, pr) := by
  intro l
  induction l with
  | nil => intro seen t pr; simp [dedupFirstAux]
  | cons x xs ih =>
    intro seen t pr
    unfold dedupFirstAux
    by_cases hseen : x.1 ∈ seen
    · rw [if_pos hseen, ih seen t pr]
      by_cases hxt : x.1 = t
      · constructor <;> (rintro ⟨htns, -⟩; exact absurd (hxt ▸ hseen) htns)
      · rw [List.find?_cons_of_neg _ (by simp [hxt])]
    · rw [if_neg hseen, List.mem_cons, ih (x.1 :: seen) t pr]
      by_cases hxt : x.1 = t
      · subst hxt
        rw [List.find?_cons_of_pos _ (by simp)]
        constructor
        · rintro (heq | ⟨hns, -⟩)
          · exact ⟨hseen, by rw [← heq]⟩
          · exact absurd (List.mem_cons_self _ _) hns
        · rintro ⟨-, hf⟩
          exact Or.inl (Option.some.inj hf).symm
      · rw [List.find?_cons_of_neg _ (by simp [hxt])]
        constructor
        · rintro (heq | ⟨hns, hf⟩)
          · exact absurd (congrArg Prod.fst heq).symm hxt
          · exact ⟨fun hts => hns (List.mem_cons_of_mem _ hts), hf⟩
        · rintro ⟨hns, hf⟩
          refine Or.inr ⟨?_, hf⟩
          intro hmem
          rcases List.mem_cons.1 hmem with heq | hts
          · exact hxt heq.symm
          · exact hns hts

/-- C10.  `run_bess_model` raises no input-validity error on unparseable or
duplicate timestamps: after sanitization the series is strictly sorted by
time; an entry `(t, pr)` survives exactly when `pr` is the price of the first
parseable entry with timestamp `t` (unparseable entries dropped, duplicates
keep the first occurrence); and whenever at least 8000 entries survive, the
simulation runs on that cleaned series. -/
theorem run_bess_model_sanitizes_index (cfg : ModuleConfig) (ud : Bool)
    (lq hq : ℚ) (raw : RawSeries) :
    (sanitize_index raw).Pairwise (fun a b => a.1 < b.1)
    ∧ (∀ (t : Timestamp) (pr : ℚ),
        (t, pr) ∈ sanitize_index raw
          ↔ (parseIndex raw).find? (fun x => x.1 == t) = some (t, pr))
    ∧ (8000 ≤ (sanitize_index raw).length →
        run_bess_model cfg ud lq hq raw
          = Except.ok
              (simulate_bess_dispatch (sanitize_index raw)
                 (runParams cfg ud lq hq),
               summarize_bess (bessCapacity cfg)
                 (simulate_bess_dispatch (sanitize_index raw)
                   (runParams cfg ud lq hq)))) := by
  refine ⟨?_, ?_, ?_⟩
  · have hle : (sanitize_index raw).Pairwise (fun a b => a.1 ≤ b.1) :=
      pairwise_sortByTime _
    have hne : (sanitize_index raw).Pairwise (fun a b => a.1 ≠ b.1) := by
      have hperm := sortByTime_perm
        (dropDuplicateTimestamps (parseIndex raw))
      exact (hperm.pairwise_iff (fun h => Ne.symm h)).2
        (dedupFirstAux_keys (parseIndex raw) []).1
    exact (hle.and hne).imp (fun h => lt_of_le_of_ne h.1 h.2)
  · intro t pr
    rw [show sanitize_index raw
        = sortByTime (dropDuplicateTimestamps (parseIndex raw)) from rfl,
      (sortByTime_perm _).mem_iff]
    rw [show dropDuplicateTimestamps (parseIndex raw)
        = dedupFirstAux [] (parseIndex raw) from rfl,
      mem_dedupFirstAux (parseIndex raw) [] t pr]
    simp
  · intro h
    simp [run_bess_model, Nat.not_lt.2 h]

/-- Witness for C10: a raw series with an unparseable timestamp and a
duplicated timestamp 5; the sanitized series keeps the first entry for 5
(price 10, not 20) and drops the unparseable one. -/
theorem run_bess_model_sanitizes_index_witness :
    ((5:ℤ), (10:ℚ)) ∈ sanitize_index
      [(some 5, 10), (none, 3), (some 5, 20), (some 2, 7)] :=
  ((run_bess_model_sanitizes_index ⟨100, 4, 9/10, 9/10⟩ false (1/4) (3/4)
    [(some 5, 10), (none, 3), (some 5, 20), (some 2, 7)]).2.1 5 10).mpr rfl
